import Mathlib

/-!
Shallow embedding of the task-management REST API (Express + Sequelize +
PostgreSQL).  Pure-functional model of the controllers in
`src/controllers/taskController.js`, the auth controller and the auth
middleware, over an explicit in-memory store standing for the two
relational tables.  HTTP/JSON responses are modelled as inductive values;
timestamps and identifiers are naturals; the database's generated ids are
passed in explicitly where a row is created.
-/

namespace TaskApi

/-- Task priority enum (`low` / `medium` / `high`), default `medium`. -/
inductive Priority
  | low
  | medium
  | high
deriving DecidableEq

/-- A row of the `tasks` table.  `dueDate` and `description` are nullable
columns; `createdAt` is the server-assigned creation timestamp. -/
structure Task where
  id : Nat
  title : String
  description : Option String
  completed : Bool
  dueDate : Option Nat
  priority : Priority
  tags : List String
  createdAt : Nat
  userId : Nat
deriving DecidableEq

/-- A row of the `users` table.  `password` holds the stored (salted,
one-way) password hash, never the raw password. -/
structure User where
  id : Nat
  name : String
  email : String
  password : String
  active : Bool
  lastAccess : Option Nat
deriving DecidableEq

/-- The persistent state: the two relational tables. -/
structure Store where
  users : List User
  tasks : List Task
deriving DecidableEq

/-- The public projection of a user, as serialised in register/login
responses (`{ id, name, email }` — exactly these three fields). -/
structure PublicUser where
  id : Nat
  name : String
  email : String
deriving DecidableEq

/-- A user record as loaded by the auth middleware and profile endpoints:
`attributes: { exclude: ['password'] }` — every column except the hash. -/
structure AuthedUser where
  id : Nat
  name : String
  email : String
  active : Bool
  lastAccess : Option Nat
deriving DecidableEq

/-- The claims embedded in a JWT: `{ id, email, name }` (see
`generarToken` call sites in the auth controller). -/
structure TokenPayload where
  id : Nat
  email : String
  name : String
deriving DecidableEq

/-- Token issuance (`src/utils/jwt.js` `generarToken`): signs exactly the
given payload.  The signature/secret is abstracted: the token is a
function of the payload only (it reads no other state). -/
def generarToken (p : TokenPayload) : String :=
  "jwt." ++ toString p.id ++ "." ++ p.email ++ "." ++ p.name

/-- Modelled from the spec: the `User` model file is not in the source
tree; per the spec the password is "stored only as a salted one-way hash"
computed by a pre-save hook.  Modelled as an injective tagging function. -/
def hashPassword (raw : String) : String :=
  "hashed$" ++ raw

/-- Modelled from the spec: the `User` model's `validatePassword` compares
the candidate password against the stored hash. -/
def User.validatePassword (u : User) (raw : String) : Bool :=
  u.password == hashPassword raw

/-- Public projection used in register/login response bodies. -/
def User.toPublic (u : User) : PublicUser :=
  ⟨u.id, u.name, u.email⟩

/-- Projection performed by `attributes: { exclude: ['password'] }`. -/
def User.toAuthed (u : User) : AuthedUser :=
  ⟨u.id, u.name, u.email, u.active, u.lastAccess⟩

/-- Two user rows agreeing on every column except the stored hash. -/
def User.samePublic (u v : User) : Prop :=
  u.id = v.id ∧ u.name = v.name ∧ u.email = v.email ∧
    u.active = v.active ∧ u.lastAccess = v.lastAccess

/-- Two stores differing at most in some users' stored password hashes. -/
def Store.agreeExceptPasswords (s s' : Store) : Prop :=
  s.tasks = s'.tasks ∧ List.Forall₂ User.samePublic s.users s'.users

/-- Response of POST /api/auth/register: 400 on duplicate email, else 201
with the public user fields and a token. -/
inductive RegisterOut
  | conflict
  | created (user : PublicUser) (token : String)
deriving DecidableEq

/-- HTTP status of a register response. -/
def RegisterOut.status : RegisterOut → Nat
  | .conflict => 400
  | .created _ _ => 201

/-- `register` (auth controller): reject if a user with the email exists;
otherwise create the user (hash stored via the pre-save hook), issue a
token over `{id, email, name}` and return the public fields plus token.
`newId` is the database-generated id for the created row. -/
def register (s : Store) (newId : Nat) (name email password : String) :
    RegisterOut × Store :=
  match s.users.find? (fun u => u.email == email) with
  | some _ => (RegisterOut.conflict, s)
  | none =>
    let u : User := ⟨newId, name, email, hashPassword password, true, none⟩
    (RegisterOut.created u.toPublic (generarToken ⟨newId, email, name⟩),
     { s with users := s.users ++ [u] })

/-- Response of POST /api/auth/login. -/
inductive LoginResponse
  | invalidCredentials
  | accountInactive
  | ok (user : PublicUser) (token : String)
deriving DecidableEq

/-- HTTP status of a login response. -/
def LoginResponse.status : LoginResponse → Nat
  | .invalidCredentials => 401
  | .accountInactive => 403
  | .ok _ _ => 200

/-- `login` (auth controller): find by email (absent → 401 invalid
credentials); then the `active` flag (false → 403 inactive); then the
password check (mismatch → 401); on success update `lastAccess` to the
current time and answer 200 with public user fields plus token. -/
def login (s : Store) (now : Nat) (email password : String) :
    LoginResponse × Store :=
  match s.users.find? (fun u => u.email == email) with
  | none => (LoginResponse.invalidCredentials, s)
  | some u =>
    if !u.active then
      (LoginResponse.accountInactive, s)
    else if !(u.validatePassword password) then
      (LoginResponse.invalidCredentials, s)
    else
      let users' := s.users.map
        (fun v => if v.id == u.id then { u with lastAccess := some now } else v)
      (LoginResponse.ok u.toPublic (generarToken ⟨u.id, u.email, u.name⟩),
       { s with users := users' })

/-- Outcome of the auth middleware once the JWT layer has yielded the
embedded user id: `findByPk` excluding the password column; absence is a
401, success attaches the loaded user to the request. -/
inductive AuthResult
  | userNotFound
  | ok (user : AuthedUser)
deriving DecidableEq

/-- `protectRoute` (auth middleware), store-dependent part: look the
token's embedded id up, with the password column excluded. -/
def protectRoute (s : Store) (decodedId : Nat) : AuthResult :=
  match s.users.find? (fun u => u.id == decodedId) with
  | none => AuthResult.userNotFound
  | some u => AuthResult.ok u.toAuthed

/-- GET /api/auth/profile: returns the middleware-resolved user. -/
def getProfile (s : Store) (decodedId : Nat) : Option AuthedUser :=
  match protectRoute s decodedId with
  | AuthResult.ok a => some a
  | AuthResult.userNotFound => none

/-- PUT /api/auth/profile: `User.update({name}, {where: {id}})` (an absent
`name` changes nothing — Sequelize skips undefined values), then
`findByPk` excluding the password; email is untouched by this path. -/
def updateProfile (s : Store) (uid : Nat) (name : Option String) :
    Option AuthedUser × Store :=
  let users' := s.users.map
    (fun u => if u.id == uid then { u with name := name.getD u.name } else u)
  ((users'.find? (fun u => u.id == uid)).map User.toAuthed,
   { s with users := users' })

/-- Strict order on nullable due dates under PostgreSQL `ASC` (NULLS
LAST): values ascending, NULL after every value. -/
def dueLtB : Option Nat → Option Nat → Bool
  | some x, some y => decide (x < y)
  | some _, none => true
  | none, _ => false

/-- Reflexive order on nullable due dates (NULLS LAST). -/
def dueLeB : Option Nat → Option Nat → Bool
  | some x, some y => decide (x ≤ y)
  | some _, none => true
  | none, none => true
  | none, some _ => false

/-- The listing comparator of GET /api/tasks:
`ORDER BY completed ASC, dueDate ASC, createdAt DESC` — incomplete before
complete, then due date ascending (NULLS LAST), then creation time
descending. -/
def taskLe (a b : Task) : Bool :=
  (!a.completed && b.completed) ||
    (a.completed == b.completed &&
      (dueLtB a.dueDate b.dueDate ||
        (a.dueDate == b.dueDate && decide (b.createdAt ≤ a.createdAt))))

/-- Insert a task into a list sorted by `taskLe`. -/
def insertTask (a : Task) : List Task → List Task
  | [] => [a]
  | b :: l => if taskLe a b then a :: b :: l else b :: insertTask a l

/-- Sort a task list by the fixed three-key `ORDER BY` of the listing. -/
def sortTasks : List Task → List Task
  | [] => []
  | a :: l => insertTask a (sortTasks l)

/-- Substring test over character lists (the `%…%` pattern of `iLike`). -/
def hasSub (needle : List Char) : List Char → Bool
  | [] => needle.isEmpty
  | c :: tl => needle.isPrefixOf (c :: tl) || hasSub needle tl

/-- Case-insensitive `iLike '%search%'` match on title OR description. -/
def searchHit (search : String) (t : Task) : Bool :=
  hasSub search.toLower.toList t.title.toLower.toList ||
    (match t.description with
     | none => false
     | some d => hasSub search.toLower.toList d.toLower.toList)

/-- The query parameters of GET /api/tasks; `none` means the parameter is
absent from the query string. -/
structure ListQuery where
  completed : Option Bool
  priority : Option Priority
  search : Option String
  page : Option Nat
  limit : Option Nat
deriving DecidableEq

/-- The `where` clause built by `getTasks`: owner scope plus the optional
completed, priority and search filters. -/
def taskMatches (uid : Nat) (q : ListQuery) (t : Task) : Bool :=
  t.userId == uid &&
    (match q.completed with | none => true | some c => t.completed == c) &&
    (match q.priority with | none => true | some p => t.priority == p) &&
    (match q.search with | none => true | some str => searchHit str t)

/-- All rows matching the `where` clause (what `findAndCountAll` counts). -/
def matchingTasks (s : Store) (uid : Nat) (q : ListQuery) : List Task :=
  s.tasks.filter (taskMatches uid q)

/-- The matching rows in the listing's `ORDER BY` order, before LIMIT and
OFFSET are applied. -/
def sortedMatching (s : Store) (uid : Nat) (q : ListQuery) : List Task :=
  sortTasks (matchingTasks s uid q)

/-- The `pagination` object of the listing response. -/
structure PageInfo where
  total : Nat
  page : Nat
  limit : Nat
  totalPages : Nat
deriving DecidableEq

/-- The `data` object of the listing response: rows plus pagination. -/
structure TasksData where
  tasks : List Task
  pagination : PageInfo
deriving DecidableEq

/-- GET /api/tasks (`getTasks`): defaults `page = 1`, `limit = 10`;
`offset = (page-1)*limit`; rows are the ordered matches sliced by
OFFSET/LIMIT; `total` is the unsliced match count and
`totalPages = ceil(total/limit)`. -/
def getTasks (s : Store) (uid : Nat) (q : ListQuery) : TasksData :=
  let page := q.page.getD 1
  let limit := q.limit.getD 10
  let offset := (page - 1) * limit
  let count := (matchingTasks s uid q).length
  { tasks := ((sortedMatching s uid q).drop offset).take limit,
    pagination :=
      { total := count, page := page, limit := limit,
        totalPages := (count + limit - 1) / limit } }

/-- Response of GET /api/tasks/:id. -/
inductive GetTaskOut
  | notFound
  | ok (task : Task)
deriving DecidableEq

/-- HTTP status of a single-task read. -/
def GetTaskOut.status : GetTaskOut → Nat
  | .notFound => 404
  | .ok _ => 200

/-- `getTask`: `findOne({where: {id, userId}})`; an unowned id and an
absent id take the same 404 branch. -/
def getTask (s : Store) (uid tid : Nat) : GetTaskOut :=
  match s.tasks.find? (fun t => t.id == tid && t.userId == uid) with
  | none => GetTaskOut.notFound
  | some t => GetTaskOut.ok t

/-- The destructured PUT /api/tasks/:id body: `none` is an absent key
(left unchanged by `task.update`, which skips undefined values); for the
nullable columns a present key may itself carry SQL NULL. -/
structure TaskPatch where
  title : Option String
  description : Option (Option String)
  completed : Option Bool
  dueDate : Option (Option Nat)
  priority : Option Priority
  tags : Option (List String)
deriving DecidableEq

/-- The patch `{completed: c}` with every other key absent. -/
def completedOnlyPatch (c : Bool) : TaskPatch :=
  ⟨none, none, some c, none, none, none⟩

/-- `task.update({...})`: each supplied field overwrites, each absent
field keeps its prior value; id, owner and creation time never change. -/
def applyPatch (t : Task) (p : TaskPatch) : Task :=
  { t with
    title := p.title.getD t.title,
    description := p.description.getD t.description,
    completed := p.completed.getD t.completed,
    dueDate := p.dueDate.getD t.dueDate,
    priority := p.priority.getD t.priority,
    tags := p.tags.getD t.tags }

/-- Response of PUT /api/tasks/:id. -/
inductive UpdateOut
  | notFound
  | ok (task : Task)
deriving DecidableEq

/-- HTTP status of a task update. -/
def UpdateOut.status : UpdateOut → Nat
  | .notFound => 404
  | .ok _ => 200

/-- `updateTask`: `findOne({where: {id, userId}})` (absent → 404, nothing
written), then `task.update` on the found row. -/
def updateTask (s : Store) (uid tid : Nat) (p : TaskPatch) :
    UpdateOut × Store :=
  match s.tasks.find? (fun t => t.id == tid && t.userId == uid) with
  | none => (UpdateOut.notFound, s)
  | some t =>
    let t' := applyPatch t p
    let tasks' := s.tasks.map (fun x => if x.id == t.id then t' else x)
    (UpdateOut.ok t', { s with tasks := tasks' })

/-- Response of DELETE /api/tasks/:id. -/
inductive DeleteOut
  | notFound
  | ok
deriving DecidableEq

/-- HTTP status of a task deletion. -/
def DeleteOut.status : DeleteOut → Nat
  | .notFound => 404
  | .ok => 200

/-- `deleteTask`: `findOne({where: {id, userId}})` (absent → 404, nothing
written), then `task.destroy()` removes the row by primary key. -/
def deleteTask (s : Store) (uid tid : Nat) : DeleteOut × Store :=
  match s.tasks.find? (fun t => t.id == tid && t.userId == uid) with
  | none => (DeleteOut.notFound, s)
  | some t =>
    (DeleteOut.ok, { s with tasks := s.tasks.filter (fun x => !(x.id == t.id)) })

/-- Count of the caller's tasks with a given priority (one GROUP BY row). -/
def countPriority (s : Store) (uid : Nat) (p : Priority) : Nat :=
  (s.tasks.filter (fun t => t.userId == uid && t.priority == p)).length

/-- The statistics payload of GET /api/tasks/statistics; `byPriority`
holds one `(priority, count)` entry per priority that has at least one
task (GROUP BY yields no row for an empty group). -/
structure Stats where
  total : Nat
  completed : Nat
  pending : Nat
  byPriority : List (Priority × Nat)
deriving DecidableEq

/-- `getStatistics`: three scoped COUNTs plus a GROUP BY priority. -/
def getStatistics (s : Store) (uid : Nat) : Stats :=
  { total := (s.tasks.filter (fun t => t.userId == uid)).length,
    completed := (s.tasks.filter (fun t => t.userId == uid && t.completed)).length,
    pending := (s.tasks.filter (fun t => t.userId == uid && !t.completed)).length,
    byPriority := [Priority.low, Priority.medium, Priority.high].filterMap
      (fun p =>
        if countPriority s uid p = 0 then none else some (p, countPriority s uid p)) }

/-- A concrete two-user store used to instantiate the theorems: `ann`
(id 1, active) owns tasks 1, 2, 3 and 5; `bob` (id 2, inactive) owns
task 4. -/
def demoStore : Store :=
  ⟨[⟨1, "ann", "ann@mail.test", hashPassword "Aa1aaa", true, none⟩,
    ⟨2, "bob", "bob@mail.test", hashPassword "Bb2bbb", false, none⟩],
   [⟨1, "alpha", none, false, some 5, Priority.low, [], 10, 1⟩,
    ⟨2, "beta", some "notes", true, some 3, Priority.high, ["x"], 11, 1⟩,
    ⟨3, "gamma", none, false, none, Priority.medium, [], 12, 1⟩,
    ⟨4, "delta", none, false, some 2, Priority.medium, [], 13, 2⟩,
    ⟨5, "epsilon", none, true, none, Priority.low, [], 14, 1⟩]⟩

/-- A single-user store: `ann` with the hash of `Aa1aaa` stored. -/
def hashStoreA : Store :=
  ⟨[⟨1, "ann", "ann@mail.test", hashPassword "Aa1aaa", true, none⟩], []⟩

/-- The same store as `hashStoreA` except for `ann`'s stored hash. -/
def hashStoreB : Store :=
  ⟨[⟨1, "ann", "ann@mail.test", hashPassword "Zz9zzz", true, none⟩], []⟩

theorem taskLe_total (a b : Task) : (taskLe a b || taskLe b a) = true := by
  obtain ⟨_, _, _, ca, da, _, _, ra, _⟩ := a
  obtain ⟨_, _, _, cb, db, _, _, rb, _⟩ := b
  simp only [taskLe]
  cases ca <;> cases cb <;> cases da <;> cases db <;> simp_all [dueLtB] <;> omega

theorem taskLe_trans (a b c : Task) (hab : taskLe a b = true)
    (hbc : taskLe b c = true) : taskLe a c = true := by
  obtain ⟨_, _, _, ca, da, _, _, ra, _⟩ := a
  obtain ⟨_, _, _, cb, db, _, _, rb, _⟩ := b
  obtain ⟨_, _, _, cc, dc, _, _, rc, _⟩ := c
  simp only [taskLe] at *
  cases ca <;> cases cb <;> cases cc <;> cases da <;> cases db <;> cases dc <;>
    simp_all [dueLtB] <;> omega

theorem perm_insertTask (a : Task) (l : List Task) :
    (insertTask a l).Perm (a :: l) := by
  induction l with
  | nil => simp [insertTask]
  | cons b t ih =>
    simp only [insertTask]
    split
    · exact List.Perm.refl _
    · exact (ih.cons b).trans (List.Perm.swap a b t)

theorem perm_sortTasks (l : List Task) : (sortTasks l).Perm l := by
  induction l with
  | nil => simp [sortTasks]
  | cons a t ih => exact (perm_insertTask a (sortTasks t)).trans (ih.cons a)

theorem mem_insertTask {x a : Task} {l : List Task}
    (hx : x ∈ insertTask a l) : x = a ∨ x ∈ l := by
  have := (perm_insertTask a l).mem_iff.1 hx
  simpa using this

theorem pairwise_insertTask (a : Task) (l : List Task)
    (hl : l.Pairwise (fun x y => taskLe x y = true)) :
    (insertTask a l).Pairwise (fun x y => taskLe x y = true) := by
  induction l with
  | nil => simp [insertTask]
  | cons b t ih =>
    cases hl with
    | cons hb ht =>
      simp only [insertTask]
      split
      case isTrue h =>
        refine List.Pairwise.cons ?_ (List.Pairwise.cons hb ht)
        intro y hy
        rcases List.mem_cons.1 hy with rfl | hyt
        · exact h
        · exact taskLe_trans a b y h (hb y hyt)
      case isFalse h =>
        have hba : taskLe b a = true := by
          have htot := taskLe_total a b
          simp [h] at htot
          exact htot
        refine List.Pairwise.cons ?_ (ih ht)
        intro y hy
        rcases mem_insertTask hy with rfl | hyt
        · exact hba
        · exact hb y hyt

theorem pairwise_sortTasks (l : List Task) :
    (sortTasks l).Pairwise (fun x y => taskLe x y = true) := by
  induction l with
  | nil => simp [sortTasks]
  | cons a t ih => exact pairwise_insertTask a (sortTasks t) ih

theorem pairwise_taskLe_slice (l : List Task) (n k : Nat) :
    (((sortTasks l).drop n).take k).Pairwise (fun x y => taskLe x y = true) := by
  have h1 : (((sortTasks l).drop n).take k).Sublist (sortTasks l) :=
    (List.take_sublist _ _).trans (List.drop_sublist _ _)
  exact List.Pairwise.sublist h1 (pairwise_sortTasks l)

theorem length_sortTasks (l : List Task) : (sortTasks l).length = l.length :=
  (perm_sortTasks l).length_eq

theorem taskLe_components (a b : Task) (h : taskLe a b = true) :
    (a.completed = true → b.completed = true) ∧
      (a.completed = b.completed → dueLeB a.dueDate b.dueDate = true) ∧
      (a.completed = b.completed → a.dueDate = b.dueDate →
        b.createdAt ≤ a.createdAt) := by
  obtain ⟨_, _, _, ca, da, _, _, ra, _⟩ := a
  obtain ⟨_, _, _, cb, db, _, _, rb, _⟩ := b
  simp only [taskLe] at h
  cases ca <;> cases cb <;> cases da <;> cases db <;>
    simp_all [dueLtB, dueLeB] <;> omega

theorem length_filter_completed_split (l : List Task) (q : Task → Bool) :
    (l.filter q).length =
      (l.filter (fun t => q t && t.completed)).length +
      (l.filter (fun t => q t && !t.completed)).length := by
  induction l with
  | nil => simp
  | cons a t ih =>
    cases hq : q a <;> cases hc : a.completed <;>
      simp [List.filter_cons, hq, hc, ih] <;> omega

theorem length_filter_priority_split (l : List Task) (uid : Nat) :
    (l.filter (fun t => t.userId == uid)).length =
      (l.filter (fun t => t.userId == uid && t.priority == Priority.low)).length +
      (l.filter (fun t => t.userId == uid && t.priority == Priority.medium)).length +
      (l.filter (fun t => t.userId == uid && t.priority == Priority.high)).length := by
  induction l with
  | nil => simp
  | cons a t ih =>
    cases hq : (a.userId == uid) <;> rcases hp : a.priority <;>
      simp [List.filter_cons, hq, hp, ih] <;> omega

theorem sum_byPriority (s : Store) (uid : Nat) :
    ((getStatistics s uid).byPriority.map Prod.snd).sum =
      countPriority s uid Priority.low + countPriority s uid Priority.medium +
        countPriority s uid Priority.high := by
  simp only [getStatistics, List.filterMap]
  split_ifs <;> simp_all <;> omega

theorem forall₂_find?_email {us vs : List User} (e : String)
    (h : List.Forall₂ User.samePublic us vs) :
    (us.find? (fun u => u.email == e)).isSome =
      (vs.find? (fun u => u.email == e)).isSome := by
  induction h with
  | nil => rfl
  | @cons a b us' vs' hab hrest ih =>
    obtain ⟨_, _, he, _, _⟩ := hab
    simp only [List.find?_cons, he]
    cases hb : (b.email == e) <;> simp [hb, ih]

theorem forall₂_find?_id_toAuthed {us vs : List User} (i : Nat)
    (h : List.Forall₂ User.samePublic us vs) :
    (us.find? (fun u => u.id == i)).map User.toAuthed =
      (vs.find? (fun u => u.id == i)).map User.toAuthed := by
  induction h with
  | nil => rfl
  | @cons a b us' vs' hab hrest ih =>
    obtain ⟨hid, hn, he, hac, hla⟩ := hab
    simp only [List.find?_cons, hid]
    cases hb : (b.id == i) <;>
      simp [hb, ih, User.toAuthed, hid, hn, he, hac, hla]

theorem forall₂_map_updateName {us vs : List User} (uid : Nat)
    (nm : Option String) (h : List.Forall₂ User.samePublic us vs) :
    List.Forall₂ User.samePublic
      (us.map fun u => if u.id == uid then { u with name := nm.getD u.name } else u)
      (vs.map fun u => if u.id == uid then { u with name := nm.getD u.name } else u) := by
  induction h with
  | nil => simp
  | @cons a b us' vs' hab hrest ih =>
    obtain ⟨hid, hn, he, hac, hla⟩ := hab
    simp only [List.map_cons]
    refine List.Forall₂.cons ?_ ih
    by_cases hcond : (a.id == uid) = true
    · have hcond' : (b.id == uid) = true := by rw [← hid]; exact hcond
      simp [User.samePublic, hcond, hcond', hid, hn, he, hac, hla]
    · have hcond' : ¬((b.id == uid) = true) := by rw [← hid]; exact hcond
      simp [User.samePublic, hcond, hcond', hid, hn, he, hac, hla]

theorem login_ok_shape {s : Store} {now : Nat} {e p : String}
    {pub : PublicUser} {tok : String}
    (h : (login s now e p).1 = LoginResponse.ok pub tok) :
    ∃ u ∈ s.users, u.email = e ∧ pub = u.toPublic ∧
      tok = generarToken ⟨u.id, u.email, u.name⟩ := by
  unfold login at h
  cases hf : s.users.find? (fun u => u.email == e) with
  | none => rw [hf] at h; simp at h
  | some u =>
    rw [hf] at h
    cases hact : u.active with
    | false => simp [hact] at h
    | true =>
      cases hval : u.validatePassword p with
      | false => simp [hact, hval] at h
      | true =>
        simp [hact, hval] at h
        refine ⟨u, List.mem_of_find?_eq_some hf, ?_, h.1.symm, h.2.symm⟩
        have := List.find?_some hf
        simpa using this

/-- C1: for a task owned by user A, any other user B's get, update and
delete by that task's id all answer NotFound (404) with the store
unchanged, and the get response equals the one produced when no task with
that id exists at all. -/
theorem c1_cross_user_isolation (s : Store) (A B tid : Nat) (p : TaskPatch)
    (hAB : B ≠ A)
    (hexists : ∃ t ∈ s.tasks, t.id = tid ∧ t.userId = A)
    (hown : ∀ t ∈ s.tasks, t.id = tid → t.userId = A) :
    getTask s B tid = GetTaskOut.notFound ∧
      (getTask s B tid).status = 404 ∧
      updateTask s B tid p = (UpdateOut.notFound, s) ∧
      deleteTask s B tid = (DeleteOut.notFound, s) ∧
      ∀ s₀ : Store, (∀ t ∈ s₀.tasks, t.id ≠ tid) →
        getTask s₀ B tid = getTask s B tid := by
  have hnone : s.tasks.find? (fun t => t.id == tid && t.userId == B) = none := by
    rw [List.find?_eq_none]
    intro t ht
    simp only [Bool.and_eq_true, beq_iff_eq, not_and]
    intro hid huid
    exact hAB (huid.symm.trans (hown t ht hid))
  refine ⟨?_, ?_, ?_, ?_, ?_⟩
  · simp [getTask, hnone]
  · simp [getTask, hnone, GetTaskOut.status]
  · simp [updateTask, hnone]
  · simp [deleteTask, hnone]
  · intro s₀ h₀
    have hnone₀ : s₀.tasks.find? (fun t => t.id == tid && t.userId == B) = none := by
      rw [List.find?_eq_none]
      intro t ht
      simp only [Bool.and_eq_true, beq_iff_eq, not_and]
      intro hid
      exact absurd hid (h₀ t ht)
    simp [getTask, hnone, hnone₀]

/-- C1 witness: bob (id 2) against ann's task 1 in the demo store. -/
theorem c1_witness :
    getTask demoStore 2 1 = GetTaskOut.notFound ∧
      (getTask demoStore 2 1).status = 404 ∧
      updateTask demoStore 2 1 (completedOnlyPatch true) =
        (UpdateOut.notFound, demoStore) ∧
      deleteTask demoStore 2 1 = (DeleteOut.notFound, demoStore) := by
  have h := c1_cross_user_isolation demoStore 1 2 1 (completedOnlyPatch true)
    (by decide) (by decide) (by decide)
  exact ⟨h.1, h.2.1, h.2.2.1, h.2.2.2.1⟩

/-- C3: updating an owned task changes exactly the supplied fields; every
absent field (title, description, completed, dueDate, priority, tags)
keeps its prior stored value, and in particular a `{completed: true}`-only
body leaves all other fields unchanged. -/
theorem c3_partial_update_frame (s : Store) (uid tid : Nat) (p : TaskPatch)
    (t : Task)
    (hfind : s.tasks.find? (fun x => x.id == tid && x.userId == uid) = some t) :
    ∃ t', (updateTask s uid tid p).1 = UpdateOut.ok t' ∧
      t'.id = t.id ∧ t'.userId = t.userId ∧ t'.createdAt = t.createdAt ∧
      (∀ v, p.title = some v → t'.title = v) ∧
      (p.title = none → t'.title = t.title) ∧
      (∀ v, p.description = some v → t'.description = v) ∧
      (p.description = none → t'.description = t.description) ∧
      (∀ v, p.completed = some v → t'.completed = v) ∧
      (p.completed = none → t'.completed = t.completed) ∧
      (∀ v, p.dueDate = some v → t'.dueDate = v) ∧
      (p.dueDate = none → t'.dueDate = t.dueDate) ∧
      (∀ v, p.priority = some v → t'.priority = v) ∧
      (p.priority = none → t'.priority = t.priority) ∧
      (∀ v, p.tags = some v → t'.tags = v) ∧
      (p.tags = none → t'.tags = t.tags) ∧
      (updateTask s uid tid (completedOnlyPatch true)).1 =
        UpdateOut.ok { t with completed := true } := by
  refine ⟨applyPatch t p, ?_, ?_, ?_, ?_, ?_, ?_, ?_, ?_, ?_, ?_, ?_, ?_, ?_, ?_, ?_, ?_, ?_⟩
  · simp [updateTask, hfind]
  · rfl
  · rfl
  · rfl
  · intro v hv; simp [applyPatch, hv]
  · intro hv; simp [applyPatch, hv]
  · intro v hv; simp [applyPatch, hv]
  · intro hv; simp [applyPatch, hv]
  · intro v hv; simp [applyPatch, hv]
  · intro hv; simp [applyPatch, hv]
  · intro v hv; simp [applyPatch, hv]
  · intro hv; simp [applyPatch, hv]
  · intro v hv; simp [applyPatch, hv]
  · intro hv; simp [applyPatch, hv]
  · intro v hv; simp [applyPatch, hv]
  · intro hv; simp [applyPatch, hv]
  · simp [updateTask, hfind, applyPatch, completedOnlyPatch]

/-- C3 witness: completing ann's task 1 keeps title, description, dueDate
and priority. -/
theorem c3_witness :
    (updateTask demoStore 1 1 (completedOnlyPatch true)).1 =
      UpdateOut.ok ⟨1, "alpha", none, true, some 5, Priority.low, [], 10, 1⟩ := by
  obtain ⟨t', _, _, _, _, _, _, _, _, _, _, _, _, _, _, _, _, hlast⟩ :=
    c3_partial_update_frame demoStore 1 1 (completedOnlyPatch true)
      ⟨1, "alpha", none, false, some 5, Priority.low, [], 10, 1⟩ (by decide)
  exact hlast

/-- C4: login answers 401 InvalidCredentials on an unknown email, 403
AccountInactive on an inactive account, 401 InvalidCredentials on a
password mismatch, and otherwise 200 with the public user fields plus a
token, updating the user's lastAccess. -/
theorem c4_login_cases (s : Store) (now : Nat) (e pw : String) :
    (s.users.find? (fun w => w.email == e) = none →
      login s now e pw = (LoginResponse.invalidCredentials, s) ∧
        (login s now e pw).1.status = 401) ∧
    (∀ u, s.users.find? (fun w => w.email == e) = some u → u.active = false →
      login s now e pw = (LoginResponse.accountInactive, s) ∧
        (login s now e pw).1.status = 403) ∧
    (∀ u, s.users.find? (fun w => w.email == e) = some u → u.active = true →
      u.validatePassword pw = false →
      login s now e pw = (LoginResponse.invalidCredentials, s) ∧
        (login s now e pw).1.status = 401) ∧
    (∀ u, s.users.find? (fun w => w.email == e) = some u → u.active = true →
      u.validatePassword pw = true →
      login s now e pw =
        (LoginResponse.ok u.toPublic (generarToken ⟨u.id, u.email, u.name⟩),
         { s with users := s.users.map (fun v =>
            if v.id == u.id then { u with lastAccess := some now } else v) }) ∧
        (login s now e pw).1.status = 200) := by
  refine ⟨?_, ?_, ?_, ?_⟩
  · intro hf
    simp [login, hf, LoginResponse.status]
  · intro u hf hact
    simp [login, hf, hact, LoginResponse.status]
  · intro u hf hact hval
    simp [login, hf, hact, hval, LoginResponse.status]
  · intro u hf hact hval
    simp [login, hf, hact, hval, LoginResponse.status]

/-- C4 witness: all four login branches on the demo store. -/
theorem c4_witness :
    (login demoStore 9 "nobody@mail.test" "Aa1aaa").1 =
        LoginResponse.invalidCredentials ∧
      (login demoStore 9 "bob@mail.test" "Bb2bbb").1 =
        LoginResponse.accountInactive ∧
      (login demoStore 9 "ann@mail.test" "wrongpw").1 =
        LoginResponse.invalidCredentials ∧
      (login demoStore 9 "ann@mail.test" "Aa1aaa").1 =
        LoginResponse.ok ⟨1, "ann", "ann@mail.test"⟩
          (generarToken ⟨1, "ann@mail.test", "ann"⟩) ∧
      (login demoStore 9 "ann@mail.test" "Aa1aaa").2.users =
        [⟨1, "ann", "ann@mail.test", hashPassword "Aa1aaa", true, some 9⟩,
         ⟨2, "bob", "bob@mail.test", hashPassword "Bb2bbb", false, none⟩] := by
  have h1 := (c4_login_cases demoStore 9 "nobody@mail.test" "Aa1aaa").1 (by decide)
  have h2 := (c4_login_cases demoStore 9 "bob@mail.test" "Bb2bbb").2.1
    ⟨2, "bob", "bob@mail.test", hashPassword "Bb2bbb", false, none⟩ (by decide) rfl
  have h3 := (c4_login_cases demoStore 9 "ann@mail.test" "wrongpw").2.2.1
    ⟨1, "ann", "ann@mail.test", hashPassword "Aa1aaa", true, none⟩ (by decide) rfl (by decide)
  have h4 := (c4_login_cases demoStore 9 "ann@mail.test" "Aa1aaa").2.2.2
    ⟨1, "ann", "ann@mail.test", hashPassword "Aa1aaa", true, none⟩ (by decide) rfl (by decide)
  exact ⟨by rw [h1.1], by rw [h2.1], by rw [h3.1], by rw [h4.1]; rfl, by rw [h4.1]; rfl⟩

/-- C9: for a user with active = false the login answer is 403
AccountInactive for every supplied password — the active check precedes
password validation — and the store (hence lastAccess) is unchanged. -/
theorem c9_inactive_blocks_all_passwords (s : Store) (now : Nat) (e : String)
    (u : User) (hf : s.users.find? (fun w => w.email == e) = some u)
    (hact : u.active = false) :
    ∀ pw : String, login s now e pw = (LoginResponse.accountInactive, s) ∧
      (login s now e pw).1.status = 403 ∧ (login s now e pw).2 = s := by
  intro pw
  simp [login, hf, hact, LoginResponse.status]

/-- C9 witness: inactive bob gets 403 with both the correct and a wrong
password. -/
theorem c9_witness :
    (login demoStore 9 "bob@mail.test" "Bb2bbb" =
        (LoginResponse.accountInactive, demoStore)) ∧
      (login demoStore 9 "bob@mail.test" "oops" =
        (LoginResponse.accountInactive, demoStore)) := by
  have h := c9_inactive_blocks_all_passwords demoStore 9 "bob@mail.test"
    ⟨2, "bob", "bob@mail.test", hashPassword "Bb2bbb", false, none⟩ (by decide) rfl
  exact ⟨(h "Bb2bbb").1, (h "oops").1⟩

/-- C8: registering an already-used email answers Conflict (400) with the
store unchanged, whatever the other fields are; a fresh email creates the
user with the hashed password stored and answers 201 with the public user
fields plus a token. -/
theorem c8_register_conflict_or_create (s : Store) (newId : Nat)
    (n e pw : String) :
    ((∃ u ∈ s.users, u.email = e) →
      register s newId n e pw = (RegisterOut.conflict, s) ∧
        (register s newId n e pw).1.status = 400) ∧
    ((∀ u ∈ s.users, u.email ≠ e) →
      (register s newId n e pw).1 =
        RegisterOut.created ⟨newId, n, e⟩ (generarToken ⟨newId, e, n⟩) ∧
      (register s newId n e pw).2.users =
        s.users ++ [⟨newId, n, e, hashPassword pw, true, none⟩] ∧
      (register s newId n e pw).1.status = 201) := by
  constructor
  · intro hex
    have hsome : (s.users.find? (fun u => u.email == e)).isSome := by
      rw [List.find?_isSome]
      simpa using hex
    obtain ⟨u, hu⟩ := Option.isSome_iff_exists.1 hsome
    simp [register, hu, RegisterOut.status]
  · intro hall
    have hnone : s.users.find? (fun u => u.email == e) = none := by
      rw [List.find?_eq_none]
      intro u hu
      simpa using hall u hu
    simp [register, hnone, RegisterOut.status, User.toPublic]

/-- C8 witness: duplicate and fresh registration on the demo store. -/
theorem c8_witness :
    register demoStore 3 "zoe" "ann@mail.test" "Zz9zzz" =
        (RegisterOut.conflict, demoStore) ∧
      (register demoStore 3 "zoe" "zoe@mail.test" "Zz9zzz").1 =
        RegisterOut.created ⟨3, "zoe", "zoe@mail.test"⟩
          (generarToken ⟨3, "zoe@mail.test", "zoe"⟩) ∧
      (register demoStore 3 "zoe" "zoe@mail.test" "Zz9zzz").2.users =
        demoStore.users ++ [⟨3, "zoe", "zoe@mail.test", hashPassword "Zz9zzz", true, none⟩] := by
  have h1 := (c8_register_conflict_or_create demoStore 3 "zoe" "ann@mail.test" "Zz9zzz").1
    (by decide)
  have h2 := (c8_register_conflict_or_create demoStore 3 "zoe" "zoe@mail.test" "Zz9zzz").2
    (by decide)
  exact ⟨h1.1, h2.1, h2.2.1⟩

/-- C10: a listing request without page or limit behaves exactly as
page = 1, limit = 10: the same response, the pagination object reporting
page 1 and limit 10, and at most ten tasks returned from offset 0. -/
theorem c10_listing_defaults (s : Store) (uid : Nat) (c : Option Bool)
    (pr : Option Priority) (se : Option String) :
    getTasks s uid ⟨c, pr, se, none, none⟩ =
        getTasks s uid ⟨c, pr, se, some 1, some 10⟩ ∧
      (getTasks s uid ⟨c, pr, se, none, none⟩).pagination.page = 1 ∧
      (getTasks s uid ⟨c, pr, se, none, none⟩).pagination.limit = 10 ∧
      (getTasks s uid ⟨c, pr, se, none, none⟩).tasks =
        (sortedMatching s uid ⟨c, pr, se, none, none⟩).take 10 ∧
      (getTasks s uid ⟨c, pr, se, none, none⟩).tasks.length ≤ 10 := by
  refine ⟨rfl, rfl, rfl, by simp [getTasks], ?_⟩
  simp only [getTasks]
  exact (List.length_take_le _ _)

/-- C5: statistics satisfy total = completed + pending, the summed
byPriority counts equal total, and a priority absent from byPriority has
zero tasks. -/
theorem c5_statistics_invariants (s : Store) (uid : Nat) :
    (getStatistics s uid).total =
        (getStatistics s uid).completed + (getStatistics s uid).pending ∧
      ((getStatistics s uid).byPriority.map Prod.snd).sum =
        (getStatistics s uid).total ∧
      ∀ p : Priority,
        p ∈ (getStatistics s uid).byPriority.map Prod.fst ∨
          countPriority s uid p = 0 := by
  refine ⟨?_, ?_, ?_⟩
  · simpa [getStatistics] using
      length_filter_completed_split s.tasks (fun t => t.userId == uid)
  · rw [sum_byPriority]
    simpa [getStatistics, countPriority] using
      (length_filter_priority_split s.tasks uid).symm
  · intro p
    by_cases hc : countPriority s uid p = 0
    · exact Or.inr hc
    · refine Or.inl ?_
      cases p <;> simp [getStatistics, List.filterMap] <;> split_ifs <;> simp_all

/-- C6: in every listing result no completed task precedes an incomplete
one; among equal completion states due dates are non-decreasing (NULLS
LAST); among ties on both keys creation times are non-increasing — the
fixed three-key order of the listing's ORDER BY. -/
theorem c6_listing_order (s : Store) (uid : Nat) (q : ListQuery) :
    (getTasks s uid q).tasks.Pairwise (fun a b =>
      (a.completed = true → b.completed = true) ∧
        (a.completed = b.completed → dueLeB a.dueDate b.dueDate = true) ∧
        (a.completed = b.completed → a.dueDate = b.dueDate →
          b.createdAt ≤ a.createdAt)) := by
  have h := pairwise_taskLe_slice (matchingTasks s uid q)
    ((q.page.getD 1 - 1) * q.limit.getD 10) (q.limit.getD 10)
  have h2 : (getTasks s uid q).tasks =
      ((sortTasks (matchingTasks s uid q)).drop
        ((q.page.getD 1 - 1) * q.limit.getD 10)).take (q.limit.getD 10) := by
    simp [getTasks, sortedMatching]
  rw [h2]
  exact h.imp (fun hab => taskLe_components _ _ hab)

/-- C7: with N matching tasks and limit L (1 ≤ L ≤ 100, page ≥ 1),
totalPages = ⌈N/L⌉, the returned page is the slice at offset (page-1)·L of
length at most L, and a page beyond range yields an empty task list while
total still reports N. -/
theorem c7_pagination (s : Store) (uid : Nat) (c : Option Bool)
    (pr : Option Priority) (se : Option String) (P L : Nat)
    (hP : 1 ≤ P) (hL1 : 1 ≤ L) (hL100 : L ≤ 100) :
    (getTasks s uid ⟨c, pr, se, some P, some L⟩).pagination.total =
        (matchingTasks s uid ⟨c, pr, se, some P, some L⟩).length ∧
      (getTasks s uid ⟨c, pr, se, some P, some L⟩).pagination.totalPages =
        (matchingTasks s uid ⟨c, pr, se, some P, some L⟩).length ⌈/⌉ L ∧
      (getTasks s uid ⟨c, pr, se, some P, some L⟩).tasks =
        ((sortedMatching s uid ⟨c, pr, se, some P, some L⟩).drop ((P - 1) * L)).take L ∧
      (getTasks s uid ⟨c, pr, se, some P, some L⟩).tasks.length ≤ L ∧
      ((matchingTasks s uid ⟨c, pr, se, some P, some L⟩).length ⌈/⌉ L < P →
        (getTasks s uid ⟨c, pr, se, some P, some L⟩).tasks = []) := by
  refine ⟨rfl, rfl, rfl, ?_, ?_⟩
  · simp only [getTasks]
    exact List.length_take_le _ _
  · intro hbeyond
    have hN : (matchingTasks s uid ⟨c, pr, se, some P, some L⟩).length ≤ (P - 1) * L := by
      generalize hNdef : (matchingTasks s uid ⟨c, pr, se, some P, some L⟩).length = N at hbeyond ⊢
      have hle : N ⌈/⌉ L ≤ P - 1 := Nat.le_sub_one_of_lt hbeyond
      have h1 : N ≤ L * (N ⌈/⌉ L) := by
        have h2 := le_smul_ceilDiv (a := L) (b := N) (by omega)
        simpa [smul_eq_mul] using h2
      calc N ≤ L * (N ⌈/⌉ L) := h1
        _ ≤ L * (P - 1) := Nat.mul_le_mul_left L hle
        _ = (P - 1) * L := Nat.mul_comm L (P - 1)
    have hdrop : ((sortedMatching s uid ⟨c, pr, se, some P, some L⟩).drop ((P - 1) * L)) = [] := by
      apply List.drop_eq_nil_of_le
      rw [sortedMatching, length_sortTasks]
      exact hN
    simp [getTasks, hdrop]

/-- C7 witness: ann's four tasks with limit 2 and out-of-range page 4. -/
theorem c7_witness :
    1 ≤ 4 ∧ 1 ≤ 2 ∧ 2 ≤ 100 ∧
      (getTasks demoStore 1 ⟨none, none, none, some 4, some 2⟩).pagination.total = 4 ∧
      (getTasks demoStore 1 ⟨none, none, none, some 4, some 2⟩).pagination.totalPages = 2 ∧
      (getTasks demoStore 1 ⟨none, none, none, some 4, some 2⟩).tasks = [] := by
  have h := c7_pagination demoStore 1 none none none 4 2 (by decide) (by decide) (by decide)
  refine ⟨by decide, by decide, by decide, by decide, ?_, ?_⟩
  · rw [h.2.1]; decide
  · exact h.2.2.2.2 (by decide)



/-- C2 counterexample: two stores identical except for ann's stored
password hash produce different login responses for the same request, so
the claim's "identical responses on these read paths" fails on the login
path. -/
theorem c2_counterexample :
    Store.agreeExceptPasswords hashStoreA hashStoreB ∧
      (login hashStoreA 0 "ann@mail.test" "Aa1aaa").1 ≠
        (login hashStoreB 0 "ann@mail.test" "Aa1aaa").1 := by
  constructor
  · exact ⟨rfl, List.Forall₂.cons ⟨rfl, rfl, rfl, rfl, rfl⟩ List.Forall₂.nil⟩
  · decide

/-- C2 (amended): stores differing only in stored password hashes produce
identical responses on register, the auth guard, getProfile and
updateProfile; a successful login's returned user object is exactly the
public projection {id, name, email} plus a token over {id, email, name} —
no read path carries the raw password or the hash. -/
theorem c2_password_never_exposed (s s' : Store)
    (h : Store.agreeExceptPasswords s s') :
    (∀ newId n e pw, (register s newId n e pw).1 = (register s' newId n e pw).1) ∧
      (∀ i, protectRoute s i = protectRoute s' i) ∧
      (∀ i, getProfile s i = getProfile s' i) ∧
      (∀ uid nm, (updateProfile s uid nm).1 = (updateProfile s' uid nm).1) ∧
      (∀ now e pw pub tok, (login s now e pw).1 = LoginResponse.ok pub tok →
        ∃ u ∈ s.users, u.email = e ∧ pub = u.toPublic ∧
          tok = generarToken ⟨u.id, u.email, u.name⟩) := by
  obtain ⟨htasks, husers⟩ := h
  have hproto : ∀ i, protectRoute s i = protectRoute s' i := by
    intro i
    have hs := forall₂_find?_id_toAuthed i husers
    cases hA : s.users.find? (fun u => u.id == i) with
    | none =>
      cases hB : s'.users.find? (fun u => u.id == i) with
      | none => simp [protectRoute, hA, hB]
      | some v => rw [hA, hB] at hs; simp at hs
    | some u =>
      cases hB : s'.users.find? (fun u => u.id == i) with
      | none => rw [hA, hB] at hs; simp at hs
      | some v =>
        rw [hA, hB] at hs
        simp only [Option.map_some'] at hs
        simp [protectRoute, hA, hB]
        exact Option.some.inj hs
  refine ⟨?_, hproto, ?_, ?_, ?_⟩
  · intro newId n e pw
    have hs := forall₂_find?_email e husers
    cases hA : s.users.find? (fun u => u.email == e) with
    | none =>
      cases hB : s'.users.find? (fun u => u.email == e) with
      | none => simp [register, hA, hB]
      | some v => rw [hA, hB] at hs; simp at hs
    | some u =>
      cases hB : s'.users.find? (fun u => u.email == e) with
      | none => rw [hA, hB] at hs; simp at hs
      | some v => simp [register, hA, hB]
  · intro i
    simp [getProfile, hproto i]
  · intro uid nm
    have husers' := forall₂_map_updateName uid nm husers
    have hfind := forall₂_find?_id_toAuthed uid husers'
    simp only [updateProfile]
    exact hfind
  · intro now e pw pub tok hok
    exact login_ok_shape hok

/-- C2 witness: the hash-differing stores agree on register, guard,
profile read and profile update responses. -/
theorem c2_witness :
    (register hashStoreA 2 "zoe" "zoe@mail.test" "Qq1qqq").1 =
        (register hashStoreB 2 "zoe" "zoe@mail.test" "Qq1qqq").1 ∧
      protectRoute hashStoreA 1 = protectRoute hashStoreB 1 ∧
      getProfile hashStoreA 1 = getProfile hashStoreB 1 ∧
      (updateProfile hashStoreA 1 (some "anna")).1 =
        (updateProfile hashStoreB 1 (some "anna")).1 := by
  have h := c2_password_never_exposed hashStoreA hashStoreB
    ⟨rfl, List.Forall₂.cons ⟨rfl, rfl, rfl, rfl, rfl⟩ List.Forall₂.nil⟩
  exact ⟨h.1 2 "zoe" "zoe@mail.test" "Qq1qqq", h.2.1 1, h.2.2.1 1,
    h.2.2.2.1 1 (some "anna")⟩

end TaskApi
